import Mathlib

/-!
Verification development for the PyLambdAPI core pipeline
(`src/PyLambdAPI/lambda_flask.py`): event normalization, routing,
middleware-chain dispatch and response encoding.

The embedding models Python values with the inductive `Val` (dicts are
association lists in insertion order, as Python dicts are ordered), raising
code with `Except String` (the string is the exception message; messages are
close paraphrases of CPython texts, with quoting simplified), and the
library calls the source uses:

* `json.dumps` is `jsonDumps` (Python default separators; string escaping is
  not modelled, which is exact for strings free of `"`/`\`/control chars;
  a non-serializable value, i.e. the `bytes` marker, is a `TypeError`);
* `json.loads` is `jsonLoads`, a parser for the integer/escape-free subset
  of JSON; on that subset it agrees with Python, including last-wins
  semantics for duplicate object keys;
* `base64.b64decode` is modelled symbolically by the `Val.bytes` marker
  (no verified claim inspects decoded bytes).

Handlers and middleware are Lean functions `Val → Except String PyVal`,
where `PyVal` distinguishes a `Response` instance from any other Python
value (the source tests `isinstance(req_params, Response)`).

Execution is instrumented with a trace of middleware/handler invocations so
that claims of the form "X is never invoked / runs exactly once in order"
are statements about the trace.
-/

/-- A Python runtime value, as used by the framework. `bytes body` stands
symbolically for `base64.b64decode(body)`. -/
inductive Val : Type where
  | null : Val
  | bool : Bool → Val
  | int : Int → Val
  | str : String → Val
  | list : List Val → Val
  | dict : List (String × Val) → Val
  | bytes : Val → Val

abbrev Dict := List (String × Val)

/-- First-match association-list lookup: Python `d[k]` / `k in d` on a
string-keyed dict (keys are unique in dicts built by `dictInsert`). -/
def alookup {α : Type} : List (String × α) → String → Option α
  | [], _ => none
  | (k, v) :: rest, key => if k = key then some v else alookup rest key

/-- Python `d[k] = v` on an insertion-ordered dict: replaces in place when
the key is present, appends otherwise. -/
def dictInsert {α : Type} : List (String × α) → String → α → List (String × α)
  | [], key, v => [(key, v)]
  | (k, w) :: rest, key, v =>
    if k = key then (key, v) :: rest else (k, w) :: dictInsert rest key v

/-- Python `{**q, **b}`: fold the entries of `b` into `q` in order. -/
def mergeDicts (q b : Dict) : Dict :=
  b.foldl (fun acc kv => dictInsert acc kv.1 kv.2) q

/-- Python `type(v).__name__`, for exception messages. -/
def pyTypeName : Val → String
  | .null => "NoneType"
  | .bool _ => "bool"
  | .int _ => "int"
  | .str _ => "str"
  | .list _ => "list"
  | .dict _ => "dict"
  | .bytes _ => "bytes"

/-- Python truthiness of a value. (`bytes` only arises as the symbolic
result of a base64 decode, which no modelled code tests for truth.) -/
def pyTruthy : Val → Bool
  | .null => false
  | .bool b => b
  | .int n => n != 0
  | .str s => s != ""
  | .list xs => !xs.isEmpty
  | .dict xs => !xs.isEmpty
  | .bytes _ => true

mutual

/-- Python `json.dumps` with the default separators. String contents are
emitted unescaped (exact for strings without characters needing escapes).
Serialization is fallible: `bytes` raises
`TypeError: Object of type bytes is not JSON serializable`, exactly as
Python does, and the error of the leftmost offending element wins. -/
def jsonDumps : Val → Except String String
  | .null => .ok "null"
  | .bool true => .ok "true"
  | .bool false => .ok "false"
  | .int n => .ok (toString n)
  | .str s => .ok ("\"" ++ s ++ "\"")
  | .list xs =>
    match jsonDumpsList xs with
    | .ok s => .ok ("[" ++ s ++ "]")
    | .error e => .error e
  | .dict xs =>
    match jsonDumpsDict xs with
    | .ok s => .ok ("\x7b" ++ s ++ "\x7d")
    | .error e => .error e
  | .bytes _ => .error "Object of type bytes is not JSON serializable"

def jsonDumpsList : List Val → Except String String
  | [] => .ok ""
  | [x] => jsonDumps x
  | x :: y :: rest =>
    match jsonDumps x, jsonDumpsList (y :: rest) with
    | .ok s1, .ok s2 => .ok (s1 ++ ", " ++ s2)
    | .error e, _ => .error e
    | .ok _, .error e => .error e

def jsonDumpsDict : List (String × Val) → Except String String
  | [] => .ok ""
  | [(k, v)] =>
    match jsonDumps v with
    | .ok s => .ok ("\"" ++ k ++ "\": " ++ s)
    | .error e => .error e
  | (k, v) :: y :: rest =>
    match jsonDumps v, jsonDumpsDict (y :: rest) with
    | .ok s1, .ok s2 => .ok ("\"" ++ k ++ "\": " ++ s1 ++ ", " ++ s2)
    | .error e, _ => .error e
    | .ok _, .error e => .error e

end

def isWsChar (c : Char) : Bool :=
  c == ' ' || c == '\n' || c == '\t' || c == '\r'

def skipWs : List Char → List Char
  | [] => []
  | c :: rest => if isWsChar c then skipWs rest else c :: rest

/-- Scan the contents of a JSON string literal up to the closing quote.
Backslash escapes are outside the modelled subset. -/
def parseStrAux : List Char → Option (List Char × List Char)
  | [] => none
  | c :: rest =>
    if c == '"' then some ([], rest)
    else if c == '\\' then none
    else
      match parseStrAux rest with
      | some (s, r) => some (c :: s, r)
      | none => none

def parseDigitsAux : List Char → Nat → Nat × List Char
  | [], acc => (acc, [])
  | c :: rest, acc =>
    if c.isDigit then parseDigitsAux rest (acc * 10 + (c.toNat - 48)) else (acc, c :: rest)

/-- A character that would make a JSON number non-integral (outside the
modelled subset). -/
def numStop : List Char → Bool
  | [] => false
  | c :: _ => c == '.' || c == 'e' || c == 'E'

mutual

def parseV : Nat → List Char → Option (Val × List Char)
  | 0, _ => none
  | fuel + 1, cs =>
    match skipWs cs with
    | [] => none
    | 't' :: 'r' :: 'u' :: 'e' :: r => some (.bool true, r)
    | 'f' :: 'a' :: 'l' :: 's' :: 'e' :: r => some (.bool false, r)
    | 'n' :: 'u' :: 'l' :: 'l' :: r => some (.null, r)
    | '"' :: r =>
      match parseStrAux r with
      | some (s, r2) => some (.str (String.mk s), r2)
      | none => none
    | '[' :: r =>
      match skipWs r with
      | ']' :: r2 => some (.list [], r2)
      | r2 =>
        match parseItems fuel r2 with
        | some (xs, r3) => some (.list xs, r3)
        | none => none
    | '\x7b' :: r =>
      match skipWs r with
      | '\x7d' :: r2 => some (.dict [], r2)
      | r2 =>
        match parseMembers fuel r2 with
        | some (xs, r3) => some (.dict (mergeDicts [] xs), r3)
        | none => none
    | '-' :: c :: r =>
      if c.isDigit then
        match parseDigitsAux (c :: r) 0 with
        | (n, r2) => if numStop r2 then none else some (.int (-(n : Int)), r2)
      else none
    | c :: r =>
      if c.isDigit then
        match parseDigitsAux (c :: r) 0 with
        | (n, r2) => if numStop r2 then none else some (.int (n : Int), r2)
      else none

def parseItems : Nat → List Char → Option (List Val × List Char)
  | 0, _ => none
  | fuel + 1, cs =>
    match parseV fuel cs with
    | none => none
    | some (v, r) =>
      match skipWs r with
      | ',' :: r2 =>
        match parseItems fuel r2 with
        | some (xs, r3) => some (v :: xs, r3)
        | none => none
      | ']' :: r2 => some ([v], r2)
      | _ => none

def parseMembers : Nat → List Char → Option (List (String × Val) × List Char)
  | 0, _ => none
  | fuel + 1, cs =>
    match skipWs cs with
    | '"' :: r =>
      match parseStrAux r with
      | none => none
      | some (k, r2) =>
        match skipWs r2 with
        | ':' :: r3 =>
          match parseV fuel r3 with
          | none => none
          | some (v, r4) =>
            match skipWs r4 with
            | ',' :: r5 =>
              match parseMembers fuel r5 with
              | some (xs, r6) => some ((String.mk k, v) :: xs, r6)
              | none => none
            | '\x7d' :: r5 => some ([(String.mk k, v)], r5)
            | _ => none
        | _ => none
    | _ => none

end

/-- Python `json.loads` on the modelled JSON subset (`none` = a
`json.JSONDecodeError`, or an input outside the subset). -/
def jsonLoads (s : String) : Option Val :=
  match parseV (2 * s.length + 4) s.toList with
  | some (v, r) => if (skipWs r).isEmpty then some v else none
  | none => none

/-- The `Response` class: status code, body, optional headers, the
`isBase64Encoded` constructor argument (stored, never read by `json`),
and the target-envelope flag. Fields hold arbitrary `Val`s because the
final re-encoding in `process_request` feeds `dict.get` results back in. -/
structure Resp : Type where
  statusCode : Val
  body : Val
  headers : Val := .null
  body_encoded : Val := .bool false
  isApiGatewayEvent : Bool := false

/-- Python `self.body if isinstance(self.body, str) else json.dumps(self.body)`:
returns the body unchanged when it is a string, otherwise its JSON
serialization, propagating the `TypeError` of a non-serializable body. -/
def pyStrOrDumps : Val → Except String Val
  | .str s => .ok (.str s)
  | b =>
    match jsonDumps b with
    | .ok s => .ok (.str s)
    | .error e => .error e

/-- The method `Response.json` (source lines 147-162). For the gateway
variant it calls `json.dumps` on a non-string body, so it can raise. -/
def Resp.json (r : Resp) : Except String Val :=
  if r.isApiGatewayEvent then
    match pyStrOrDumps r.body with
    | .ok b => .ok (.dict [("statusCode", r.statusCode), ("body", b)])
    | .error e => .error e
  else
    .ok (.dict [("statusCode", r.statusCode), ("body", r.body)])

/-- A Python value as seen by `isinstance(_, Response)` checks: either a
`Response` instance or any other value. -/
inductive PyVal : Type where
  | val : Val → PyVal
  | resp : Resp → PyVal

/-- A user handler function: returns a value or raises (message). -/
abbrev Handler := Val → Except String PyVal

/-- A middleware `process_request` method: returns new params, a terminal
`Response`, or raises. (The `use_middleware` isinstance/callable checks are
enforced by this type, so their `ValueError` branches are unreachable in
the model.) -/
abbrev Mw := Val → Except String PyVal

structure MethodHandler : Type where
  func : Handler
  middlewares : List Mw

/-- One observable invocation made by the dispatch pipeline: a middleware
call (with its chain index and the params it received) or the handler call. -/
inductive TraceEv : Type where
  | mwCall : Nat → Val → TraceEv
  | handlerCall : Val → TraceEv

/-- The loop body of `MethodHandler.execute` (source lines 194-205),
instrumented with an invocation trace; `i` is the absolute chain index of
the first middleware in `mws`. -/
def executeAux (f : Handler) : List Mw → Nat → Val → Except String PyVal × List TraceEv
  | [], _, p =>
    match f p with
    | .ok v => (.ok v, [.handlerCall p])
    | .error e => (.error e, [.handlerCall p])
  | mw :: rest, i, p =>
    match mw p with
    | .error e => (.error e, [.mwCall i p])
    | .ok (.resp r) =>
      match r.json with
      | .ok v => (.ok (.val v), [.mwCall i p])
      | .error e => (.error e, [.mwCall i p])
    | .ok (.val p2) =>
      let res := executeAux f rest (i + 1) p2
      (res.1, .mwCall i p :: res.2)

/-- `MethodHandler.execute`: run the middleware chain in order, short-circuit
on a `Response` (returning its `json()`), else call the handler. -/
def MethodHandler.execute (h : MethodHandler) (p : Val) : Except String PyVal × List TraceEv :=
  executeAux h.func h.middlewares 0 p

structure Route : Type where
  path : String
  http_methods : List String
  methods : List (String × MethodHandler)

/-- The method `Route.route` (source lines 223-230): bind a handler,
overwriting any prior handler for that method, with a fresh middleware
chain. -/
def Route.route (r : Route) (m : String) (f : Handler) : Route :=
  { r with methods := dictInsert r.methods m ⟨f, []⟩ }

/-- `MethodHandler.use_middleware`: append to the chain. -/
def MethodHandler.use_middleware (h : MethodHandler) (mw : Mw) : MethodHandler :=
  { h with middlewares := h.middlewares ++ [mw] }

/-- The method `Route.use_middleware` (source lines 232-242). The mutation
of the stored handler is modelled by an in-place `dictInsert`. -/
def Route.use_middleware (r : Route) (m : String) (mw : Mw) : Except String Route :=
  match alookup r.methods m with
  | none => .error ("No method registered for " ++ m)
  | some h => .ok { r with methods := dictInsert r.methods m (h.use_middleware mw) }

/-- Python `method in self.methods` on the string-keyed `methods` dict: a
non-string request method is never a member. -/
def mhLookup (ms : List (String × MethodHandler)) : Val → Option MethodHandler
  | .str m => alookup ms m
  | _ => none

/-- The method `Route.handle_request` (source lines 244-255). The 405
`Response` is built with all-default flags. -/
def Route.handle_request (r : Route) (method : Val) (p : Val) :
    Except String PyVal × List TraceEv :=
  match mhLookup r.methods method with
  | some h => h.execute p
  | none =>
    match Resp.json ⟨.int 405, .str "Method Not Allowed", .null, .bool false, false⟩ with
    | .ok v => (.ok (.val v), [])
    | .error e => (.error e, [])

/-- The normalized request (`RequestInfo` with `aggregate=True`, which is
how both normalizers construct it). `identity` is `null` for the
direct-invocation variant (Python `None`). -/
structure RequestInfo : Type where
  path : Val
  http_method : Val
  req_params : Val
  identity : Val

/-- Python subscription `v[k]` (KeyError / TypeError on failure; quoting of
CPython messages simplified). -/
def pyIndex (v : Val) (k : String) : Except String Val :=
  match v with
  | .dict d =>
    match alookup d k with
    | some x => .ok x
    | none => .error ("KeyError: " ++ k)
  | other => .error (pyTypeName other ++ " object is not subscriptable")

/-- Python `v.get(k, dflt)` (AttributeError when `v` is not a dict). -/
def pyGet (v : Val) (k : String) (dflt : Val) : Except String Val :=
  match v with
  | .dict d => .ok ((alookup d k).getD dflt)
  | other => .error (pyTypeName other ++ " object has no attribute get")

/-- Python `params = {**q, **body}; params[headers-key] = headers`
(TypeError unless both operands are mappings). -/
def mergeIntoParams (q body headers : Val) : Except String Val :=
  match q, body with
  | .dict qd, .dict bd => .ok (.dict (dictInsert (mergeDicts qd bd) "headers" headers))
  | .dict _, other => .error (pyTypeName other ++ " object is not a mapping")
  | other, _ => .error (pyTypeName other ++ " object is not a mapping")

/-- The method `RequestInfo._aggregate_params` (source lines 295-314),
with the leading underscore dropped from the name. -/
def aggregate_params (query body headers is_b64 : Val) : Except String Val :=
  if pyTruthy body && pyTruthy is_b64 then
    mergeIntoParams query (.dict [("base64", .bool true), ("file", .bytes body)]) headers
  else if pyTruthy body then
    match body with
    | .str s =>
      match jsonLoads s with
      | some b => mergeIntoParams query b headers
      | none => .error "Expecting value: invalid JSON"
    | other => .error ("the JSON object must be str, not " ++ pyTypeName other)
  else
    mergeIntoParams query body headers

namespace utills

/-- The method `utills._process_function_url_event` (source lines 381-394),
with the leading underscore dropped from the name. -/
def process_function_url_event (event : Val) : Except String RequestInfo :=
  match pyIndex event "requestContext" with
  | .error e => .error e
  | .ok rc =>
  match pyIndex rc "http" with
  | .error e => .error e
  | .ok http =>
  match pyIndex http "path" with
  | .error e => .error e
  | .ok path =>
  match pyIndex http "method" with
  | .error e => .error e
  | .ok method =>
  match pyGet event "queryStringParameters" (.dict []) with
  | .error e => .error e
  | .ok query =>
  match pyGet event "body" (.dict []) with
  | .error e => .error e
  | .ok body =>
  match pyGet event "isBase64Encoded" (.bool false) with
  | .error e => .error e
  | .ok isB64 =>
  match pyGet event "headers" (.dict []) with
  | .error e => .error e
  | .ok headers =>
  match aggregate_params query body headers isB64 with
  | .error e => .error e
  | .ok params => .ok ⟨path, method, params, .null⟩

/-- The method `utills._process_api_url_event` (source lines 396-411), with
the leading underscore dropped from the name. `event.get(k)` with no
default is `pyGet _ k .null`; the `x if x else default-empty` guards are
the `pyTruthy` conditionals. -/
def process_api_url_event (event : Val) : Except String RequestInfo :=
  match pyIndex event "path" with
  | .error e => .error e
  | .ok path =>
  match pyIndex event "httpMethod" with
  | .error e => .error e
  | .ok method =>
  match pyGet event "queryStringParameters" .null with
  | .error e => .error e
  | .ok q0 =>
  let query := if pyTruthy q0 then q0 else .dict []
  match pyGet event "body" .null with
  | .error e => .error e
  | .ok b0 =>
  let body := if pyTruthy b0 then b0 else .dict []
  match pyGet event "isBase64Encoded" (.bool false) with
  | .error e => .error e
  | .ok isB64 =>
  match pyGet event "headers" (.dict []) with
  | .error e => .error e
  | .ok headers =>
  match pyGet event "requestContext" (.dict []) with
  | .error e => .error e
  | .ok rc =>
  match pyGet rc "identity" (.dict []) with
  | .error e => .error e
  | .ok identity =>
  match aggregate_params query body headers isB64 with
  | .error e => .error e
  | .ok params => .ok ⟨path, method, params, identity⟩

end utills

/-- The configured source variant. `LambdaFlask.__init__` raises
`ValueError` for anything outside `ALLOWED_SOURCES`, so a constructed
dispatcher carries exactly one of these two. -/
inductive Source : Type where
  | functionUrl : Source
  | apiGatewayProxy : Source

/-- The method `utills.process_event` (source lines 413-427); the
invalid-type branch is unreachable for a constructed dispatcher (see
`Source`). -/
def utills.process_event (src : Source) (event : Val) : Except String RequestInfo :=
  match src with
  | .functionUrl => utills.process_function_url_event event
  | .apiGatewayProxy => utills.process_api_url_event event

abbrev Registry := List (String × Route)

/-- A constructed `LambdaFlask` instance. The two logging flags only gate
log output: `RequestInfo.log` never fails, and `log_response`'s
`response.get` calls fail exactly when (and with the same `AttributeError`
as) the final re-encoding line, so logging is dropped from the model. -/
structure LambdaFlask : Type where
  routes : Registry
  source : Source

def LambdaFlask.isApiGatewayEvent (app : LambdaFlask) : Bool :=
  match app.source with
  | .apiGatewayProxy => true
  | .functionUrl => false

/-- Python `req_info.route() in self.routes` plus the subsequent
`self.routes[req_info.route()]`: a non-string path matches no key. -/
def lookupRoute (routes : Registry) : Val → Option Route
  | .str s => alookup routes s
  | _ => none

/-- Python `response.get(k, dflt)` on the value reaching the final encoding
line: an `AttributeError` unless it is a dict. -/
def pyvGet (r : PyVal) (k : String) (dflt : Val) : Except String Val :=
  match r with
  | .val (.dict d) => .ok ((alookup d k).getD dflt)
  | .val v => .error (pyTypeName v ++ " object has no attribute get")
  | .resp _ => .error "Response object has no attribute get"

/-- The final line of `process_request` (source line 493): re-wrap whatever
`response` holds through `Response(...).json()`, reading the four fields
with `.get` defaults. -/
def finalEncode (response : PyVal) (gw : Bool) : Except String Val :=
  match pyvGet response "statusCode" (.int 500) with
  | .error e => .error e
  | .ok sc =>
  match pyvGet response "body" (.dict []) with
  | .error e => .error e
  | .ok body =>
  match pyvGet response "headers" (.dict []) with
  | .error e => .error e
  | .ok hd =>
  match pyvGet response "isBase64Encoded" (.bool false) with
  | .error e => .error e
  | .ok b64 => Resp.json ⟨sc, body, hd, b64, gw⟩

/-- The method `LambdaFlask.process_request` (source lines 468-493). The
`try` block yields a response value or a raised exception's message
(`tryRes`); the `except` converts any raised message into the encoded 500
error Response (`caught`) — that encoding itself never raises, since the
error body is an all-string dict, but were it to, the model preserves the
propagation; the final re-encoding (line 493) runs outside the `try`, so
its `AttributeError` (non-mapping response) or `TypeError` (gateway body
not JSON-serializable) propagates to the caller. The initial
`Response(500, ...)` is dead: every branch reassigns `response`. -/
def LambdaFlask.process_request (app : LambdaFlask) (event : Val) :
    Except String Val × List TraceEv :=
  let gw := app.isApiGatewayEvent
  let tryRes : Except String PyVal × List TraceEv :=
    match utills.process_event app.source event with
    | .error e => (.error e, [])
    | .ok req =>
      match lookupRoute app.routes req.path with
      | none =>
        match Resp.json ⟨.int 404, .str "Route Not Found", .null, .bool false, gw⟩ with
        | .ok v => (.ok (.val v), [])
        | .error e => (.error e, [])
      | some route => route.handle_request req.http_method req.req_params
  let caught : Except String PyVal × List TraceEv :=
    match tryRes with
    | (.ok v, tr) => (.ok v, tr)
    | (.error e, tr) =>
      match Resp.json ⟨.int 500, .dict [("error", .str e)], .null, .bool false, gw⟩ with
      | .ok v => (.ok (.val v), tr)
      | .error e2 => (.error e2, tr)
  match caught with
  | (.error e, tr) => (.error e, tr)
  | (.ok response, tr) =>
    match finalEncode response gw with
    | .ok env => (.ok env, tr)
    | .error e => (.error e, tr)

/-- Python `http_methods or [GET]` in `Route.__init__`: an empty (or
absent) method list falls back to GET. -/
def pyListOr (l d : List String) : List String :=
  if l.isEmpty then d else l

/-- The method `LambdaFlask.route` (source lines 453-466) as a pure state
transformer: returns the (possibly updated) registry and the route the
caller receives (the stored one — aliasing is modelled by re-inserting the
final route value, see `route_decorator`). -/
def LambdaFlask.routeF (routes : Registry) (path : String) (hms : List String) :
    Registry × Route :=
  match alookup routes path with
  | some r => (routes, r)
  | none =>
    let r : Route := ⟨path, pyListOr hms ["GET"], []⟩
    (dictInsert routes path r, r)

/-- The inner middleware loop of `route_decorator`: attach each middleware
to the just-bound method in order. -/
def attachAll (r : Route) (m : String) : List Mw → Except String Route
  | [] => .ok r
  | mw :: rest =>
    match r.use_middleware m mw with
    | .error e => .error e
    | .ok r2 => attachAll r2 m rest

/-- The per-method loop of `route_decorator`: bind the handler, then attach
the middlewares. -/
def regLoop (f : Handler) (mws : List Mw) : Route → List String → Except String Route
  | r, [] => .ok r
  | r, m :: rest =>
    match attachAll (r.route m f) m mws with
    | .error e => .error e
    | .ok r2 => regLoop f mws r2 rest

/-- The method `LambdaFlask.route_decorator` (source lines 525-552) applied
to a handler `f`, as a registry transformer. Python mutates the aliased
stored `Route`; the model re-inserts the final value, which coincides on
the (only reachable) success path. -/
def LambdaFlask.route_decorator (routes : Registry) (path : String) (hms : List String)
    (mws : List Mw) (f : Handler) : Except String Registry :=
  let s := LambdaFlask.routeF routes path hms
  match regLoop f mws s.2 hms with
  | .error e => .error e
  | .ok r2 => .ok (dictInsert s.1 path r2)

/-- A minimal well-formed trigger event for a given source variant: path,
method and a query-string dict, no body and no headers. -/
def mkEvent : Source → String → String → Dict → Val
  | .functionUrl, path, m, qd =>
    .dict [("requestContext", .dict [("http", .dict [("path", .str path), ("method", .str m)])]),
           ("queryStringParameters", .dict qd)]
  | .apiGatewayProxy, path, m, qd =>
    .dict [("path", .str path), ("httpMethod", .str m), ("queryStringParameters", .dict qd)]

/-- The body re-encoding the final line applies under the configured
variant: gateway-proxy serializes non-string bodies (raising `TypeError`
when the body is not serializable), direct passes through. -/
def variantEnc (gw : Bool) (b : Val) : Except String Val :=
  if gw then pyStrOrDumps b else .ok b

/-- Whether the variant re-encoding of a body value succeeds. -/
def variantEncOk (gw : Bool) (b : Val) : Bool :=
  match variantEnc gw b with
  | .ok _ => true
  | .error _ => false

/-- A well-formed envelope: a mapping whose entries are exactly a
statusCode and a body (the shape `Response.json` always produces). -/
def isEnvelope : Val → Bool
  | .dict [(k1, _), (k2, _)] => k1 == "statusCode" && k2 == "body"
  | _ => false

/-- Whether a `process_request` outcome is a returned well-formed envelope
(rather than a propagated exception or a malformed value). -/
def isOkEnvelope : Except String Val → Bool
  | .ok v => isEnvelope v
  | .error _ => false

/-- The body field of a Response's own json encoding (or the `TypeError`
that encoding raises). -/
def Resp.jsonBody (r : Resp) : Except String Val :=
  if r.isApiGatewayEvent then pyStrOrDumps r.body else .ok r.body

/-- A direct-invocation event with a query-string dict, a body value and a
headers value. -/
def mkEventWithBody (path M : String) (qd : Dict) (body hv : Val) : Val :=
  .dict [("requestContext", .dict [("http", .dict [("path", .str path), ("method", .str M)])]),
         ("queryStringParameters", .dict qd), ("body", body), ("headers", hv)]

/-- Fixture: a handler returning a complete envelope mapping. -/
def hOkW : Handler := fun _ => .ok (.val (.dict [("statusCode", .int 200), ("body", .str "hi")]))

/-- Fixture: a handler returning a bare string (not a mapping). -/
def hStrW : Handler := fun _ => .ok (.val (.str "hi"))

/-- Fixture: a handler returning an empty mapping (no statusCode, no body). -/
def hEmptyW : Handler := fun _ => .ok (.val (.dict []))

/-- Fixture: a handler that raises. -/
def hBoomW : Handler := fun _ => .error "boom"

/-- Fixture: first-registration handler for the idempotence claim. -/
def hC6a : Handler := fun _ => .ok (.val (.dict [("statusCode", .int 200), ("body", .str "a")]))

/-- Fixture: second-registration handler for the idempotence claim. -/
def hC6b : Handler := fun _ => .ok (.val (.dict [("statusCode", .int 200), ("body", .str "b")]))

/-- Fixture: a middleware short-circuiting with a 401 string-body Response. -/
def mwStopW : Mw := fun _ => .ok (.resp ⟨.int 401, .str "no", .null, .bool false, false⟩)

/-- Fixture: a middleware short-circuiting with a 401 dict-body Response. -/
def mwStopX : Mw := fun _ => .ok (.resp ⟨.int 401, .dict [("a", .int 1)], .null, .bool false, false⟩)

/-- Fixture: a method handler echoing its params in the body. -/
def mhC10 : MethodHandler := ⟨fun q => .ok (.val (.dict [("statusCode", .int 200), ("body", q)])), []⟩

def appC2W : LambdaFlask := ⟨[("/a", ⟨"/a", ["GET"], [("GET", ⟨hBoomW, []⟩)]⟩)], .apiGatewayProxy⟩

def appC8W : LambdaFlask := ⟨[("/a", ⟨"/a", ["GET"], [("GET", ⟨hOkW, []⟩)]⟩)], .functionUrl⟩

def appC9W : LambdaFlask := ⟨[("/a", ⟨"/a", ["GET"], [("GET", ⟨hEmptyW, []⟩)]⟩)], .functionUrl⟩

def appC3W : LambdaFlask := ⟨[("/a", ⟨"/a", ["GET"], [("GET", ⟨hOkW, []⟩)]⟩)], .functionUrl⟩

def appC3X : LambdaFlask := ⟨[("/a", ⟨"/a", ["GET"], [("GET", ⟨hStrW, []⟩)]⟩)], .functionUrl⟩

def appC1W : LambdaFlask := ⟨[("/a", ⟨"/a", ["POST"], [("POST", ⟨hOkW, [mwStopW]⟩)]⟩)], .functionUrl⟩

def appC1X : LambdaFlask := ⟨[("/a", ⟨"/a", ["POST"], [("POST", ⟨hOkW, [mwStopX]⟩)]⟩)], .apiGatewayProxy⟩

/-- Fixture: the normalized params of a body-less, header-less event. -/
def pC1W : Val := .dict [("headers", .dict [])]

/-- Fixture: a handler returning a mapping whose body is (decoded) bytes. -/
def hBytesW : Handler := fun _ => .ok (.val (.dict [("statusCode", .int 200), ("body", .bytes (.str "x"))]))

def appC3Y : LambdaFlask := ⟨[("/a", ⟨"/a", ["GET"], [("GET", ⟨hBytesW, []⟩)]⟩)], .apiGatewayProxy⟩

/-- Fixture: a middleware short-circuiting with a 401 bytes-body Response. -/
def mwStopB : Mw := fun _ => .ok (.resp ⟨.int 401, .bytes (.str "x"), .null, .bool false, false⟩)

def appC1Y : LambdaFlask := ⟨[("/a", ⟨"/a", ["POST"], [("POST", ⟨hOkW, [mwStopB]⟩)]⟩)], .apiGatewayProxy⟩

def appC9X : LambdaFlask := ⟨[("/a", ⟨"/a", ["GET"], [("GET", ⟨hEmptyW, []⟩)]⟩)], .apiGatewayProxy⟩

/-- Fixture: a handler returning a full envelope mapping plus an extra key. -/
def hFullW : Handler := fun _ => .ok (.val (.dict [("statusCode", .int 201), ("body", .str "ok"), ("x", .int 1)]))

def appC9Z : LambdaFlask := ⟨[("/a", ⟨"/a", ["GET"], [("GET", ⟨hFullW, []⟩)]⟩)], .functionUrl⟩

/-! ## General lemmas about the embedded operations -/

theorem alookup_dictInsert {α : Type} (d : List (String × α)) (k : String) (v : α) (m : String) :
    alookup (dictInsert d k v) m = if k = m then some v else alookup d m := by
  induction d with
  | nil => simp [dictInsert, alookup]
  | cons kv rest ih =>
    obtain ⟨k1, v1⟩ := kv
    by_cases h1 : k1 = k
    · subst h1
      by_cases h2 : k1 = m <;> simp [dictInsert, alookup, h2]
    · by_cases h2 : k1 = m
      · subst h2
        simp [dictInsert, alookup, h1, ih]
        rw [if_neg fun h => h1 h.symm]
      · simp [dictInsert, alookup, h1, h2, ih]

theorem dictInsert_dictInsert {α : Type} (d : List (String × α)) (k : String) (v w : α) :
    dictInsert (dictInsert d k v) k w = dictInsert d k w := by
  induction d with
  | nil => simp [dictInsert]
  | cons kv rest ih =>
    obtain ⟨k1, v1⟩ := kv
    by_cases h : k1 = k
    · simp [dictInsert, h]
    · simp [dictInsert, h, ih]

theorem keys_dictInsert_of_mem {α : Type} :
    ∀ (d : List (String × α)) (k : String) (v : α),
      (alookup d k).isSome = true → (dictInsert d k v).map Prod.fst = d.map Prod.fst := by
  intro d
  induction d with
  | nil => intro k v h; simp [alookup] at h
  | cons kv rest ih =>
    intro k v h
    obtain ⟨k1, v1⟩ := kv
    by_cases h1 : k1 = k
    · simp [dictInsert, h1]
    · simp only [alookup, if_neg h1] at h
      simp [dictInsert, h1, ih k v h]

theorem variantEnc_str (gw : Bool) (s : String) : variantEnc gw (.str s) = .ok (.str s) := by
  cases gw <;> simp [variantEnc, pyStrOrDumps]

theorem variantEncOk_exists (gw : Bool) (b : Val) (h : variantEncOk gw b = true) :
    ∃ b2, variantEnc gw b = .ok b2 := by
  unfold variantEncOk at h
  cases hv : variantEnc gw b
  · rw [hv] at h; cases h
  · exact ⟨_, rfl⟩

theorem finalEncode_dict (d : Dict) (gw : Bool) :
    finalEncode (.val (.dict d)) gw =
      match variantEnc gw ((alookup d "body").getD (.dict [])) with
      | .ok B2 => .ok (.dict [("statusCode", (alookup d "statusCode").getD (.int 500)),
                              ("body", B2)])
      | .error e => .error e := by
  cases gw
  · simp [finalEncode, pyvGet, Resp.json, variantEnc]
  · simp [finalEncode, pyvGet, Resp.json, variantEnc]

theorem Resp.json_eq (r : Resp) :
    r.json = match r.jsonBody with
             | .ok B => .ok (.dict [("statusCode", r.statusCode), ("body", B)])
             | .error e => .error e := by
  cases h : r.isApiGatewayEvent
  · simp [Resp.json, Resp.jsonBody, h]
  · simp [Resp.json, Resp.jsonBody, h]

theorem json_ok_decomp (r : Resp) (jv : Val) (h : r.json = .ok jv) :
    ∃ B, r.jsonBody = .ok B ∧ jv = .dict [("statusCode", r.statusCode), ("body", B)] := by
  rw [Resp.json_eq] at h
  cases hb : r.jsonBody with
  | ok B =>
    rw [hb] at h
    simp only [Except.ok.injEq] at h
    exact ⟨B, rfl, h.symm⟩
  | error e =>
    rw [hb] at h
    cases h

theorem json500_spec (gw : Bool) (e : String) :
    ∃ B, Resp.json ⟨.int 500, .dict [("error", .str e)], .null, .bool false, gw⟩ =
      .ok (.dict [("statusCode", .int 500), ("body", B)]) := by
  cases gw
  · exact ⟨.dict [("error", .str e)], rfl⟩
  · exact ⟨_, rfl⟩

theorem json404_eq (gw : Bool) :
    Resp.json ⟨.int 404, .str "Route Not Found", .null, .bool false, gw⟩ =
      .ok (.dict [("statusCode", .int 404), ("body", .str "Route Not Found")]) := by
  cases gw <;> rfl

theorem finalEncode_strBody_dict (a : Val) (s : String) (gw : Bool) :
    finalEncode (.val (.dict [("statusCode", a), ("body", .str s)])) gw =
      .ok (.dict [("statusCode", a), ("body", .str s)]) := by
  rw [finalEncode_dict]
  have h2 : alookup ([("statusCode", a), ("body", .str s)] : Dict) "body" =
      some (.str s) := by simp [alookup]
  have h1 : alookup ([("statusCode", a), ("body", .str s)] : Dict) "statusCode" =
      some a := by simp [alookup]
  rw [h1, h2]
  simp [variantEnc_str]

theorem finalEncode_json500 (gw : Bool) (e : String) :
    ∀ env, Resp.json ⟨.int 500, .dict [("error", .str e)], .null, .bool false, gw⟩ = .ok env →
      finalEncode (.val env) gw = .ok env := by
  intro env h
  cases gw
  · simp only [Resp.json, Bool.false_eq_true, if_neg, ite_false] at h
    simp only [Except.ok.injEq] at h
    subst h
    rw [finalEncode_dict]
    simp [alookup, variantEnc]
  · simp only [Resp.json, if_pos, pyStrOrDumps, jsonDumps, jsonDumpsDict] at h
    simp only [Except.ok.injEq] at h
    subst h
    exact finalEncode_strBody_dict (.int 500) _ true

theorem process_event_mkEvent (src : Source) (path m : String) (qd : Dict) :
    utills.process_event src (mkEvent src path m qd) =
      .ok ⟨.str path, .str m, .dict (dictInsert qd "headers" (.dict [])),
           match src with | .functionUrl => .null | .apiGatewayProxy => .dict []⟩ := by
  cases src
  · simp [utills.process_event, utills.process_function_url_event, mkEvent, pyIndex, pyGet,
          alookup, aggregate_params, pyTruthy, mergeIntoParams, mergeDicts]
  · cases qd with
    | nil =>
      simp [utills.process_event, utills.process_api_url_event, mkEvent, pyIndex, pyGet,
            alookup, aggregate_params, pyTruthy, mergeIntoParams, mergeDicts]
    | cons kv rest =>
      simp [utills.process_event, utills.process_api_url_event, mkEvent, pyIndex, pyGet,
            alookup, aggregate_params, pyTruthy, mergeIntoParams, mergeDicts]

theorem executeAux_shortcircuit (f : Handler) (r : Resp) :
    ∀ (mws : List Mw) (k : Nat) (hk : k < mws.length) (ps : Nat → Val)
      (hpre : ∀ i (h : i < k), mws.get ⟨i, Nat.lt_trans h hk⟩ (ps i) = .ok (.val (ps (i + 1))))
      (hstop : mws.get ⟨k, hk⟩ (ps k) = .ok (.resp r)) (j : Nat),
      executeAux f mws j (ps 0) =
        ((match r.json with
          | .ok jv => .ok (.val jv)
          | .error e => .error e),
         (List.range (k + 1)).map fun i => .mwCall (j + i) (ps i)) := by
  intro mws
  induction mws with
  | nil => intro k hk; exact absurd hk (Nat.not_lt_zero k)
  | cons mw rest ih =>
    intro k hk ps hpre hstop j
    cases k with
    | zero =>
      have h0 : mw (ps 0) = .ok (.resp r) := hstop
      cases hj : r.json <;> simp [executeAux, h0, hj, List.range_succ]
    | succ k2 =>
      have h0 : mw (ps 0) = .ok (.val (ps 1)) := hpre 0 (Nat.succ_pos k2)
      have hk2 : k2 < rest.length := Nat.lt_of_succ_lt_succ hk
      have ihr := ih k2 hk2 (fun i => ps (i + 1))
        (fun i h => hpre (i + 1) (Nat.succ_lt_succ h))
        hstop (j + 1)
      simp only [executeAux, h0]
      rw [ihr]
      have htr : (List.range (k2 + 1 + 1)).map (fun i => TraceEv.mwCall (j + i) (ps i)) =
          TraceEv.mwCall j (ps 0) ::
            (List.range (k2 + 1)).map (fun i => TraceEv.mwCall (j + 1 + i) (ps (i + 1))) := by
        rw [List.range_succ_eq_map]
        simp only [List.map_cons, List.map_map, Nat.add_zero]
        congr 1
        apply List.map_congr_left
        intro i hi
        simp only [Function.comp, Nat.succ_eq_add_one]
        congr 1
        omega
      rw [htr]

theorem executeAux_ok_origin (f : Handler) :
    ∀ (mws : List Mw) (i : Nat) (p : Val) (v : PyVal) (tr : List TraceEv),
      executeAux f mws i p = (.ok v, tr) →
      (∃ mw q r jv, mw ∈ mws ∧ mw q = .ok (.resp r) ∧ r.json = .ok jv ∧ v = .val jv) ∨
      ∃ q, f q = .ok v := by
  intro mws
  induction mws with
  | nil =>
    intro i p v tr h
    simp only [executeAux] at h
    cases hf : f p with
    | ok w =>
      rw [hf] at h
      simp only [Prod.mk.injEq, Except.ok.injEq] at h
      exact Or.inr ⟨p, by rw [hf, h.1]⟩
    | error e =>
      rw [hf] at h
      simp at h
  | cons mw rest ih =>
    intro i p v tr h
    simp only [executeAux] at h
    cases hm : mw p with
    | error e =>
      rw [hm] at h
      simp at h
    | ok w =>
      cases w with
      | resp r =>
        rw [hm] at h
        simp only at h
        cases hj : Resp.json r with
        | ok jv =>
          rw [hj] at h
          simp only [Prod.mk.injEq, Except.ok.injEq] at h
          exact Or.inl ⟨mw, p, r, jv, List.mem_cons_self mw rest, hm, hj, h.1.symm⟩
        | error e =>
          rw [hj] at h
          simp at h
      | val p2 =>
        rw [hm] at h
        simp only at h
        cases he : executeAux f rest (i + 1) p2 with
        | mk res tr2 =>
          rw [he] at h
          simp only [Prod.mk.injEq] at h
          rcases ih (i + 1) p2 v tr2 (by rw [he, h.1]) with
            ⟨mw2, q, r, jv, hmem, hmw, hj, hv⟩ | hr
          · exact Or.inl ⟨mw2, q, r, jv, List.mem_cons_of_mem mw hmem, hmw, hj, hv⟩
          · exact Or.inr hr

theorem routeFold_http_methods (f : Handler) :
    ∀ (hms : List String) (r : Route),
      (hms.foldl (fun r2 m => r2.route m f) r).http_methods = r.http_methods := by
  intro hms
  induction hms with
  | nil => intro r; rfl
  | cons a rest ih => intro r; rw [List.foldl_cons, ih]; rfl

theorem routeFold_methods (f : Handler) :
    ∀ (hms : List String) (r : Route) (m : String),
      alookup (hms.foldl (fun r2 mm => r2.route mm f) r).methods m =
        if m ∈ hms then some ⟨f, []⟩ else alookup r.methods m := by
  intro hms
  induction hms with
  | nil => intro r m; simp
  | cons a rest ih =>
    intro r m
    rw [List.foldl_cons, ih]
    by_cases h1 : m ∈ rest
    · simp [h1]
    · by_cases h2 : m = a
      · subst h2
        simp [h1, Route.route, alookup_dictInsert]
      · have h3 : ¬(a = m) := fun hh => h2 hh.symm
        simp [h1, h2, Route.route, alookup_dictInsert, h3]

theorem regLoop_no_middleware (f : Handler) :
    ∀ (hms : List String) (r : Route),
      regLoop f [] r hms = .ok (hms.foldl (fun r2 m => r2.route m f) r) := by
  intro hms
  induction hms with
  | nil => intro r; rfl
  | cons a rest ih =>
    intro r
    simp only [regLoop, attachAll]
    rw [ih, List.foldl_cons]

theorem isEnvelope_two_keys (a b : Val) :
    isEnvelope (.dict [("statusCode", a), ("body", b)]) = true := by
  simp [isEnvelope]

/-- When the route dispatch produces a plain mapping, the pipeline ends in
the line-493 re-encode of that mapping: the statusCode and body keys are
read with their defaults and the body goes through the variant encoding,
whose `TypeError` (if any) propagates. -/
theorem process_request_dict_result (app : LambdaFlask) (event : Val) (req : RequestInfo)
    (route : Route) (d : Dict) (tr : List TraceEv)
    (hnorm : utills.process_event app.source event = .ok req)
    (hfound : lookupRoute app.routes req.path = some route)
    (hexec : route.handle_request req.http_method req.req_params = (.ok (.val (.dict d)), tr)) :
    app.process_request event =
      ((match variantEnc app.isApiGatewayEvent ((alookup d "body").getD (.dict [])) with
        | .ok B2 => .ok (.dict [("statusCode", (alookup d "statusCode").getD (.int 500)),
                                ("body", B2)])
        | .error e => .error e), tr) := by
  unfold LambdaFlask.process_request
  rw [hnorm]
  simp only [hfound, hexec, finalEncode_dict]
  cases hv : variantEnc app.isApiGatewayEvent ((alookup d "body").getD (.dict [])) <;> simp [hv]

/-! ## Claim theorems -/

/-- Claim C1 (amended). When the k-th middleware of the chain bound to a
(path, method) handler returns a `Response`, the earlier middlewares each
run exactly once, in registration order, each receiving the previous
middleware's returned params; no later middleware and not the handler
runs. The dispatcher's envelope carries exactly the Response's status
code, with the Response's body passed through the Response's own `json()`
encoding and then the line-493 variant encoding — the identity when both
are direct-invocation; under gateway-proxy a non-string body is
JSON-serialized when serializable, and otherwise the `TypeError` raised at
line 493 propagates and no envelope is returned; a Response whose own
`json()` raises is instead caught at the boundary and yields the encoded
500 error envelope. -/
theorem middleware_shortcircuit_chain_and_envelope (src : Source) (routes : Registry)
    (path M : String) (qd : Dict) (route : Route) (f : Handler) (mws : List Mw)
    (k : Nat) (hk : k < mws.length) (ps : Nat → Val) (r : Resp)
    (hroute : alookup routes path = some route)
    (hmh : alookup route.methods M = some ⟨f, mws⟩)
    (hp0 : ps 0 = .dict (dictInsert qd "headers" (.dict [])))
    (hpre : ∀ i (h : i < k), mws.get ⟨i, Nat.lt_trans h hk⟩ (ps i) = .ok (.val (ps (i + 1))))
    (hstop : mws.get ⟨k, hk⟩ (ps k) = .ok (.resp r)) :
    LambdaFlask.process_request ⟨routes, src⟩ (mkEvent src path M qd) =
      ((match Resp.jsonBody r with
        | .ok B =>
          match variantEnc (LambdaFlask.isApiGatewayEvent ⟨routes, src⟩) B with
          | .ok B2 => .ok (.dict [("statusCode", r.statusCode), ("body", B2)])
          | .error e => .error e
        | .error e =>
          Resp.json ⟨.int 500, .dict [("error", .str e)], .null, .bool false,
                     LambdaFlask.isApiGatewayEvent ⟨routes, src⟩⟩),
       (List.range (k + 1)).map fun i => .mwCall i (ps i)) := by
  have htr0 : (List.range (k + 1)).map (fun i => TraceEv.mwCall (0 + i) (ps i)) =
      (List.range (k + 1)).map fun i => TraceEv.mwCall i (ps i) := by
    apply List.map_congr_left
    intro i hi
    simp
  unfold LambdaFlask.process_request
  rw [show (⟨routes, src⟩ : LambdaFlask).source = src from rfl, process_event_mkEvent]
  simp only [lookupRoute, hroute, Route.handle_request, mhLookup, hmh]
  rw [← hp0]
  rw [show MethodHandler.execute ⟨f, mws⟩ (ps 0) = executeAux f mws 0 (ps 0) from rfl]
  rw [executeAux_shortcircuit f r mws k hk ps hpre hstop 0]
  rw [htr0]
  cases hjb : Resp.jsonBody r with
  | ok B =>
    have hjson : r.json = .ok (.dict [("statusCode", r.statusCode), ("body", B)]) := by
      rw [Resp.json_eq, hjb]
    rw [hjson]
    simp only
    rw [finalEncode_dict]
    have h1 : alookup ([("statusCode", r.statusCode), ("body", B)] : Dict) "statusCode" =
        some r.statusCode := by simp [alookup]
    have h2 : alookup ([("statusCode", r.statusCode), ("body", B)] : Dict) "body" =
        some B := by simp [alookup]
    rw [h1, h2]
    simp only [Option.getD_some]
    cases hv : variantEnc (LambdaFlask.isApiGatewayEvent ⟨routes, src⟩) B <;> simp [hv]
  | error e =>
    have hjson : r.json = .error e := by
      rw [Resp.json_eq, hjb]
    rw [hjson]
    simp only
    rcases json500_spec (LambdaFlask.isApiGatewayEvent ⟨routes, src⟩) e with ⟨B5, hj5⟩
    rw [hj5]
    simp only
    rw [finalEncode_json500 _ e _ hj5]

/-- Claim C1 witness: a one-middleware chain returning a 401 Response with
a string body under the direct-invocation variant; the handler never runs
and the envelope is exactly the Response's status and body. -/
theorem middleware_shortcircuit_chain_and_envelope_witness :
    LambdaFlask.process_request appC1W (mkEvent .functionUrl "/a" "POST" []) =
      (.ok (.dict [("statusCode", .int 401), ("body", .str "no")]), [.mwCall 0 pC1W]) := by
  have h := middleware_shortcircuit_chain_and_envelope .functionUrl appC1W.routes "/a" "POST" []
    ⟨"/a", ["POST"], [("POST", ⟨hOkW, [mwStopW]⟩)]⟩ hOkW [mwStopW] 0 (by decide)
    (fun _ => pC1W) ⟨.int 401, .str "no", .null, .bool false, false⟩
    rfl rfl rfl (fun i hi => absurd hi (Nat.not_lt_zero i)) rfl
  simpa [appC1W, variantEnc, Resp.jsonBody, pyStrOrDumps] using h

/-- Claim C1 counterexample: under the gateway-proxy variant a
short-circuiting middleware's dict body is JSON-serialized by the
dispatcher, so the envelope body is not exactly the Response's body; and
with a non-serializable (bytes) body, line 493 raises `TypeError` and no
envelope is returned at all. -/
theorem middleware_shortcircuit_body_reencoded_counterexample :
    (appC1X.process_request (mkEvent .apiGatewayProxy "/a" "POST" [])).1 =
      .ok (.dict [("statusCode", .int 401), ("body", .str "\x7b\"a\": 1\x7d")]) ∧
    Val.str "\x7b\"a\": 1\x7d" ≠ Val.dict [("a", .int 1)] ∧
    (appC1Y.process_request (mkEvent .apiGatewayProxy "/a" "POST" [])).1 =
      .error "Object of type bytes is not JSON serializable" := ⟨rfl, by simp, rfl⟩

/-- Claim C2. Any exception raised during normalization, middleware
execution or handler invocation is caught once at the dispatcher boundary:
process_request returns (never raises — the second conjunct exhibits the
returned envelope) the encoding of a 500 Response whose body is the
mapping carrying the exception's message under the error key. -/
theorem unhandled_exception_yields_500_envelope (app : LambdaFlask) (event : Val) (e : String)
    (h : utills.process_event app.source event = .error e ∨
         ∃ req route tr, utills.process_event app.source event = .ok req ∧
           lookupRoute app.routes req.path = some route ∧
           route.handle_request req.http_method req.req_params = (.error e, tr)) :
    (app.process_request event).1 =
      Resp.json ⟨.int 500, .dict [("error", .str e)], .null, .bool false,
                 app.isApiGatewayEvent⟩ ∧
    ∃ env, Resp.json ⟨.int 500, .dict [("error", .str e)], .null, .bool false,
                      app.isApiGatewayEvent⟩ = .ok env := by
  rcases json500_spec app.isApiGatewayEvent e with ⟨B5, hj5⟩
  refine ⟨?_, ⟨_, hj5⟩⟩
  rcases h with h | ⟨req, route, tr, h1, h2, h3⟩
  · unfold LambdaFlask.process_request
    rw [h]
    simp only [hj5]
    rw [finalEncode_json500 _ e _ hj5]
  · unfold LambdaFlask.process_request
    rw [h1]
    simp only [h2, h3, hj5]
    rw [finalEncode_json500 _ e _ hj5]

/-- Claim C2 witness: a raising handler on a gateway-proxy dispatcher
produces the encoded 500 error envelope. -/
theorem unhandled_exception_yields_500_envelope_witness :
    (appC2W.process_request (mkEvent .apiGatewayProxy "/a" "GET" [])).1 =
      Resp.json ⟨.int 500, .dict [("error", .str "boom")], .null, .bool false, true⟩ :=
  (unhandled_exception_yields_500_envelope appC2W (mkEvent .apiGatewayProxy "/a" "GET" []) "boom"
    (Or.inr ⟨⟨.str "/a", .str "GET", .dict [("headers", .dict [])], .dict []⟩,
      ⟨"/a", ["GET"], [("GET", ⟨hBoomW, []⟩)]⟩,
      [.handlerCall (.dict [("headers", .dict [])])], rfl, rfl, rfl⟩)).1

/-- Claim C3 (amended). Provided every registered handler, whenever it
returns normally, returns a mapping whose body entry (defaulting to the
empty mapping) is encodable under the configured variant, and every
middleware short-circuit Response's own-encoded body is likewise
encodable, process_request returns without raising and its value is a
well-formed envelope containing a statusCode and a body, on every internal
path (success, 404, 405 or 500). Without the encodability proviso the
line-493 re-encode can raise: an `AttributeError` on a non-mapping result,
or a `TypeError` on a gateway-proxy body that is not JSON-serializable. -/
theorem process_request_wellformed_envelope (app : LambdaFlask)
    (hg : ∀ p route, alookup app.routes p = some route →
      ∀ m mh, alookup route.methods m = some mh →
      (∀ q v, mh.func q = .ok v → ∃ d, v = .val (.dict d) ∧
         variantEncOk app.isApiGatewayEvent ((alookup d "body").getD (.dict [])) = true) ∧
      (∀ mw, mw ∈ mh.middlewares → ∀ q r B, mw q = .ok (.resp r) →
         Resp.jsonBody r = .ok B → variantEncOk app.isApiGatewayEvent B = true))
    (event : Val) :
    isOkEnvelope (app.process_request event).1 = true := by
  unfold LambdaFlask.process_request
  cases hn : utills.process_event app.source event with
  | error e =>
    rcases json500_spec app.isApiGatewayEvent e with ⟨B5, hj5⟩
    simp only [hn, hj5]
    rw [finalEncode_json500 _ e _ hj5]
    simp [isOkEnvelope, isEnvelope_two_keys]
  | ok req =>
    simp only [hn]
    cases hr : lookupRoute app.routes req.path with
    | none =>
      simp only [hr, json404_eq]
      rw [finalEncode_strBody_dict]
      simp [isOkEnvelope, isEnvelope_two_keys]
    | some route =>
      simp only [hr]
      cases hh : route.handle_request req.http_method req.req_params with
      | mk res tr =>
        cases res with
        | error e =>
          rcases json500_spec app.isApiGatewayEvent e with ⟨B5, hj5⟩
          simp only [hh, hj5]
          rw [finalEncode_json500 _ e _ hj5]
          simp [isOkEnvelope, isEnvelope_two_keys]
        | ok v =>
          have hv : (∃ sc B, v = .val (.dict [("statusCode", sc), ("body", B)]) ∧
                      variantEncOk app.isApiGatewayEvent B = true) ∨
                    (∃ d, v = .val (.dict d) ∧
                      variantEncOk app.isApiGatewayEvent
                        ((alookup d "body").getD (.dict [])) = true) := by
            unfold Route.handle_request at hh
            cases hm : mhLookup route.methods req.http_method with
            | none =>
              rw [hm] at hh
              simp only [Resp.json, Bool.false_eq_true, if_false, Prod.mk.injEq,
                Except.ok.injEq] at hh
              refine Or.inl ⟨.int 405, .str "Method Not Allowed", hh.1.symm, ?_⟩
              simp [variantEncOk, variantEnc_str]
            | some mh =>
              rw [hm] at hh
              rcases executeAux_ok_origin mh.func mh.middlewares 0 req.req_params v tr hh with
                ⟨mw, q, r, jv, hmem, hmw, hj, hvv⟩ | ⟨q, hq⟩
              · rcases json_ok_decomp r jv hj with ⟨B, hjB, hjv⟩
                have hms : ∃ ms, alookup route.methods ms = some mh := by
                  cases hme : req.http_method <;> rw [hme] at hm <;>
                    simp only [mhLookup] at hm <;>
                    first
                      | exact ⟨_, hm⟩
                      | cases hm
                have hps : ∃ ps, alookup app.routes ps = some route := by
                  cases hpe : req.path <;> rw [hpe] at hr <;>
                    simp only [lookupRoute] at hr <;>
                    first
                      | exact ⟨_, hr⟩
                      | cases hr
                rcases hms with ⟨ms, hmal⟩
                rcases hps with ⟨ps, hpal⟩
                have hok := (hg ps route hpal ms mh hmal).2 mw hmem q r B hmw hjB
                exact Or.inl ⟨r.statusCode, B, by rw [hvv, hjv], hok⟩
              · have hms : ∃ ms, alookup route.methods ms = some mh := by
                  cases hme : req.http_method <;> rw [hme] at hm <;>
                    simp only [mhLookup] at hm <;>
                    first
                      | exact ⟨_, hm⟩
                      | cases hm
                have hps : ∃ ps, alookup app.routes ps = some route := by
                  cases hpe : req.path <;> rw [hpe] at hr <;>
                    simp only [lookupRoute] at hr <;>
                    first
                      | exact ⟨_, hr⟩
                      | cases hr
                rcases hms with ⟨ms, hmal⟩
                rcases hps with ⟨ps, hpal⟩
                rcases (hg ps route hpal ms mh hmal).1 q v hq with ⟨d, hd, hok⟩
                exact Or.inr ⟨d, hd, hok⟩
          rcases hv with ⟨sc, B, hvv, hok⟩ | ⟨d, hvv, hok⟩
          · subst hvv
            simp only [hh]
            rw [show (Val.dict [("statusCode", sc), ("body", B)]) =
                  Val.dict ([("statusCode", sc), ("body", B)] : Dict) from rfl]
            rw [finalEncode_dict]
            have h2 : alookup ([("statusCode", sc), ("body", B)] : Dict) "body" = some B := by
              simp [alookup]
            rw [h2]
            simp only [Option.getD_some]
            rcases variantEncOk_exists _ _ hok with ⟨B2, hv2⟩
            rw [hv2]
            simp [isOkEnvelope, isEnvelope_two_keys]
          · subst hvv
            simp only [hh]
            rw [finalEncode_dict]
            rcases variantEncOk_exists _ _ hok with ⟨B2, hv2⟩
            rw [hv2]
            simp [isOkEnvelope, isEnvelope_two_keys]

/-- Claim C3 witness: a direct-invocation dispatcher whose only handler
returns a mapping satisfies the hypotheses (under direct-invocation every
body is encodable) and yields a well-formed envelope. -/
theorem process_request_wellformed_envelope_witness :
    isOkEnvelope (appC3W.process_request (mkEvent .functionUrl "/a" "GET" [])).1 = true := by
  apply process_request_wellformed_envelope
  intro p r hp m mh hm
  simp only [appC3W, alookup] at hp
  by_cases h1 : "/a" = p
  · rw [if_pos h1] at hp
    cases hp
    simp only [alookup] at hm
    by_cases h2 : "GET" = m
    · rw [if_pos h2] at hm
      cases hm
      constructor
      · intro q v hq
        simp only [hOkW] at hq
        cases hq
        refine ⟨_, rfl, ?_⟩
        simp [appC3W, LambdaFlask.isApiGatewayEvent, variantEncOk, variantEnc]
      · intro mw hmem q r2 B hmw hjB
        simp at hmem
    · rw [if_neg h2] at hm
      cases hm
  · rw [if_neg h1] at hp
    cases hp

/-- Claim C3 counterexample: a handler returning a bare string makes the
final re-encoding raise `AttributeError`, and a gateway-proxy handler
returning a mapping whose body is bytes makes it raise `TypeError` — in
both cases the exception propagates instead of an envelope being
returned. -/
theorem process_request_raises_on_nonmapping_result :
    (appC3X.process_request (mkEvent .functionUrl "/a" "GET" [])).1 =
      .error "str object has no attribute get" ∧
    (appC3Y.process_request (mkEvent .apiGatewayProxy "/a" "GET" [])).1 =
      .error "Object of type bytes is not JSON serializable" := ⟨rfl, rfl⟩

/-- Claim C4 (amended). The two defaults are independent: whenever the
mapping reaching the final encoding step has no statusCode key the emitted
envelope's statusCode is 500 (whatever happens to its body), and whenever
it has no body key the emitted body is the empty mapping (encoded per the
configured variant) — not a generic failure message. -/
theorem final_encoding_missing_fields_defaults (app : LambdaFlask) (event : Val)
    (req : RequestInfo) (route : Route) (d : Dict) (tr : List TraceEv)
    (hnorm : utills.process_event app.source event = .ok req)
    (hfound : lookupRoute app.routes req.path = some route)
    (hexec : route.handle_request req.http_method req.req_params = (.ok (.val (.dict d)), tr)) :
    (alookup d "statusCode" = none →
      app.process_request event =
        ((match variantEnc app.isApiGatewayEvent ((alookup d "body").getD (.dict [])) with
          | .ok B2 => .ok (.dict [("statusCode", .int 500), ("body", B2)])
          | .error e => .error e), tr)) ∧
    (alookup d "body" = none →
      app.process_request event =
        (.ok (.dict [("statusCode", (alookup d "statusCode").getD (.int 500)),
                     ("body", if app.isApiGatewayEvent then .str "\x7b\x7d" else .dict [])]),
         tr)) := by
  have H := process_request_dict_result app event req route d tr hnorm hfound hexec
  constructor
  · intro hsc
    rw [H]
    simp only [hsc, Option.getD_none]
  · intro hb
    rw [H, hb]
    simp only [Option.getD_none]
    cases happ : app.isApiGatewayEvent
    · simp [variantEnc]
    · rw [show variantEnc true (.dict []) = .ok (.str "\x7b\x7d") from rfl]
      simp

/-- Claim C4 witness: a handler returning the empty mapping reaches the
final encoding with the body key missing and gets the empty-mapping
default. -/
theorem final_encoding_missing_fields_defaults_witness :
    appC9W.process_request (mkEvent .functionUrl "/a" "GET" []) =
      (.ok (.dict [("statusCode", .int 500), ("body", .dict [])]),
       [.handlerCall (.dict [("headers", .dict [])])]) := by
  have H := final_encoding_missing_fields_defaults appC9W (mkEvent .functionUrl "/a" "GET" [])
    ⟨.str "/a", .str "GET", .dict [("headers", .dict [])], .null⟩
    ⟨"/a", ["GET"], [("GET", ⟨hEmptyW, []⟩)]⟩ [] [.handlerCall (.dict [("headers", .dict [])])]
    rfl rfl rfl
  have h2 := H.2 rfl
  simpa using h2

/-- Claim C4 counterexample: with the body field missing, the emitted body
is the empty mapping, not a generic failure message string (neither of the
two message strings the source contains). -/
theorem missing_body_defaults_to_empty_mapping :
    (appC9W.process_request (mkEvent .functionUrl "/a" "GET" [])).1 =
      .ok (.dict [("statusCode", .int 500), ("body", .dict [])]) ∧
    Val.dict [] ≠ Val.str "Unable To Process Request" ∧
    Val.dict [] ≠ Val.str "No Body Recieved in Response" := by
  refine ⟨rfl, ?_, ?_⟩ <;> simp

/-- Claim C5 (amended). For a direct-invocation event with a non-empty,
non-base64 body that parses as a JSON object, the normalized params are
the union of the query-string parameters and the parsed body fields (body
overriding like-named query fields) plus the reserved headers entry,
inserted last, holding the event's headers. -/
theorem params_union_query_body_headers (path M : String) (qd bf : Dict) (hv : Val)
    (bodyS : String) (hb : bodyS ≠ "") (hj : jsonLoads bodyS = some (.dict bf)) :
    utills.process_event .functionUrl (mkEventWithBody path M qd (.str bodyS) hv) =
      .ok ⟨.str path, .str M, .dict (dictInsert (mergeDicts qd bf) "headers" hv), .null⟩ := by
  simp [utills.process_event, utills.process_function_url_event, mkEventWithBody, pyIndex, pyGet,
        alookup, aggregate_params, pyTruthy, hb, hj, mergeIntoParams]

/-- Claim C5 witness: a concrete event whose JSON body field overrides a
like-named query parameter. -/
theorem params_union_query_body_headers_witness :
    utills.process_event .functionUrl
        (mkEventWithBody "/a" "GET" [("q", .str "1"), ("a", .str "qv")]
          (.str "\x7b\"a\": 2\x7d") (.dict [("h", .str "v")])) =
      .ok ⟨.str "/a", .str "GET",
           .dict [("q", .str "1"), ("a", .int 2), ("headers", .dict [("h", .str "v")])],
           .null⟩ := by
  have h := params_union_query_body_headers "/a" "GET" [("q", .str "1"), ("a", .str "qv")]
    [("a", .int 2)] (.dict [("h", .str "v")]) "\x7b\"a\": 2\x7d" (by decide) rfl
  simpa [mergeDicts, dictInsert] using h

/-- Claim C5 counterexample: the params are not exactly the union of query
params and body fields — the reserved headers entry is always added, so an
event with empty query and empty JSON-object body yields a non-empty
params mapping. -/
theorem params_contain_reserved_headers_entry :
    utills.process_event .functionUrl
        (mkEventWithBody "/a" "GET" [] (.str "\x7b\x7d") (.dict [])) =
      .ok ⟨.str "/a", .str "GET", .dict [("headers", .dict [])], .null⟩ ∧
    Val.dict [("headers", .dict [])] ≠ Val.dict [] := ⟨rfl, by simp⟩

/-- Claim C6. Registering an already-known path again is idempotent on the
route table: the second registration reuses the stored Route (same
registry keys, and the Route keeps the first registration's http_methods
list), and after binding handlers for both registrations' method lists the
single stored Route serves exactly the union of the two method sets, the
second handler on the second list and the first handler on the rest. -/
theorem route_registration_idempotent (routes : Registry) (path : String)
    (hm1 hm2 : List String) (f1 f2 : Handler)
    (hfresh : alookup routes path = none) :
    let r0 : Route := ⟨path, pyListOr hm1 ["GET"], []⟩
    let r1 := hm1.foldl (fun r m => r.route m f1) r0
    let R1 := dictInsert routes path r1
    let r2 := hm2.foldl (fun r m => r.route m f2) r1
    let R2 := dictInsert R1 path r2
    LambdaFlask.route_decorator routes path hm1 [] f1 = .ok R1 ∧
    LambdaFlask.route_decorator R1 path hm2 [] f2 = .ok R2 ∧
    R2.map Prod.fst = R1.map Prod.fst ∧
    alookup R2 path = some r2 ∧
    r2.http_methods = pyListOr hm1 ["GET"] ∧
    (∀ m, (alookup r2.methods m).isSome = true ↔ (m ∈ hm1 ∨ m ∈ hm2)) ∧
    (∀ m, m ∈ hm2 → alookup r2.methods m = some ⟨f2, []⟩) ∧
    (∀ m, m ∈ hm1 → m ∉ hm2 → alookup r2.methods m = some ⟨f1, []⟩) := by
  intro r0 r1 R1 r2 R2
  have hlk1 : alookup R1 path = some r1 := by
    simp [R1, alookup_dictInsert]
  have hm2all : ∀ m, alookup r2.methods m =
      if m ∈ hm2 then some ⟨f2, []⟩ else if m ∈ hm1 then some ⟨f1, []⟩ else none := by
    intro m
    rw [show r2 = hm2.foldl (fun r mm => r.route mm f2) r1 from rfl]
    rw [routeFold_methods f2 hm2 r1 m]
    rw [show r1 = hm1.foldl (fun r mm => r.route mm f1) r0 from rfl]
    rw [routeFold_methods f1 hm1 r0 m]
    rfl
  refine ⟨?_, ?_, ?_, ?_, ?_, ?_, ?_, ?_⟩
  · unfold LambdaFlask.route_decorator LambdaFlask.routeF
    rw [hfresh]
    simp only [regLoop_no_middleware]
    rw [dictInsert_dictInsert]
  · unfold LambdaFlask.route_decorator LambdaFlask.routeF
    rw [hlk1]
    simp only [regLoop_no_middleware]
  · exact keys_dictInsert_of_mem R1 path r2 (by rw [hlk1]; rfl)
  · simp [R2, alookup_dictInsert]
  · rw [show r2 = hm2.foldl (fun r mm => r.route mm f2) r1 from rfl,
        routeFold_http_methods,
        show r1 = hm1.foldl (fun r mm => r.route mm f1) r0 from rfl,
        routeFold_http_methods]
  · intro m
    rw [hm2all m]
    by_cases h2 : m ∈ hm2
    · simp [h2]
    · by_cases h1 : m ∈ hm1 <;> simp [h1, h2]
  · intro m hm
    rw [hm2all m, if_pos hm]
  · intro m hm hnot
    rw [hm2all m, if_neg hnot, if_pos hm]

/-- Claim C6 witness: registering GET for a path and then POST for the
same path yields one table entry serving both methods. -/
theorem route_registration_idempotent_witness :
    LambdaFlask.route_decorator [] "/p" ["GET"] [] hC6a =
      .ok [("/p", ⟨"/p", ["GET"], [("GET", ⟨hC6a, []⟩)]⟩)] ∧
    LambdaFlask.route_decorator [("/p", ⟨"/p", ["GET"], [("GET", ⟨hC6a, []⟩)]⟩)]
        "/p" ["POST"] [] hC6b =
      .ok [("/p", ⟨"/p", ["GET"], [("GET", ⟨hC6a, []⟩), ("POST", ⟨hC6b, []⟩)]⟩)] ∧
    (alookup [("GET", (⟨hC6a, []⟩ : MethodHandler)), ("POST", ⟨hC6b, []⟩)] "GET").isSome = true ∧
    (alookup [("GET", (⟨hC6a, []⟩ : MethodHandler)), ("POST", ⟨hC6b, []⟩)] "POST").isSome = true := by
  obtain ⟨a, b, c, d, e, f, g, h⟩ :=
    route_registration_idempotent [] "/p" ["GET"] ["POST"] hC6a hC6b rfl
  exact ⟨a, b, (f "GET").mpr (Or.inl (by simp)), (f "POST").mpr (Or.inr (by simp))⟩

/-- Claim C7. Dispatching an event whose normalized path is not in the
route table yields the encoded envelope with statusCode 404 and body
Route Not Found, and no middleware or handler is invoked (empty trace). -/
theorem unregistered_path_404 (app : LambdaFlask) (event : Val) (req : RequestInfo)
    (hnorm : utills.process_event app.source event = .ok req)
    (hmiss : lookupRoute app.routes req.path = none) :
    app.process_request event =
      (.ok (.dict [("statusCode", .int 404), ("body", .str "Route Not Found")]), []) := by
  unfold LambdaFlask.process_request
  rw [hnorm]
  simp only [hmiss, json404_eq]
  rw [finalEncode_strBody_dict]

/-- Claim C7 witness: an empty route table and a well-formed event. -/
theorem unregistered_path_404_witness :
    LambdaFlask.process_request ⟨[], .functionUrl⟩ (mkEvent .functionUrl "/x" "GET" []) =
      (.ok (.dict [("statusCode", .int 404), ("body", .str "Route Not Found")]), []) :=
  unregistered_path_404 ⟨[], .functionUrl⟩ (mkEvent .functionUrl "/x" "GET" [])
    ⟨.str "/x", .str "GET", .dict [("headers", .dict [])], .null⟩ rfl rfl

/-- Claim C8 (amended). Method matching at dispatch is case-sensitive on
the stored key: whenever the request method is not literally a key of the
bound-methods mapping — in particular when it differs from a bound method
only in letter case — the dispatcher returns the 405 Method Not Allowed
envelope and invokes nothing. -/
theorem unbound_method_405 (app : LambdaFlask) (event : Val) (req : RequestInfo)
    (route : Route)
    (hnorm : utills.process_event app.source event = .ok req)
    (hfound : lookupRoute app.routes req.path = some route)
    (hmiss : mhLookup route.methods req.http_method = none) :
    app.process_request event =
      (.ok (.dict [("statusCode", .int 405), ("body", .str "Method Not Allowed")]), []) := by
  unfold LambdaFlask.process_request
  rw [hnorm]
  simp only [hfound, Route.handle_request, hmiss, Resp.json, Bool.false_eq_true, if_false]
  rw [finalEncode_strBody_dict]

/-- Claim C8 witness: a handler bound under GET and a request with method
get (lower case) hits the 405 branch. -/
theorem unbound_method_405_witness :
    appC8W.process_request (mkEvent .functionUrl "/a" "get" []) =
      (.ok (.dict [("statusCode", .int 405), ("body", .str "Method Not Allowed")]), []) :=
  unbound_method_405 appC8W (mkEvent .functionUrl "/a" "get" [])
    ⟨.str "/a", .str "get", .dict [("headers", .dict [])], .null⟩
    ⟨"/a", ["GET"], [("GET", ⟨hOkW, []⟩)]⟩ rfl rfl rfl

/-- Claim C8 counterexample: with a handler bound under GET, dispatching
method get returns 405 with an empty trace (the handler is not invoked),
while the exact-case method GET invokes the handler — so matching is not
case-insensitive. -/
theorem method_lookup_case_sensitive_counterexample :
    appC8W.process_request (mkEvent .functionUrl "/a" "get" []) =
      (.ok (.dict [("statusCode", .int 405), ("body", .str "Method Not Allowed")]), []) ∧
    appC8W.process_request (mkEvent .functionUrl "/a" "GET" []) =
      (.ok (.dict [("statusCode", .int 200), ("body", .str "hi")]),
       [.handlerCall (.dict [("headers", .dict [])])]) := ⟨rfl, rfl⟩

/-- Claim C9 (amended). When the route dispatch produces a plain mapping,
process_request builds the final envelope by reading its statusCode and
body keys, defaulting to 500 and the empty mapping respectively, and
discarding everything else; the defaulted body then passes through the
variant encoding: unchanged under direct-invocation — so a neither-key
mapping yields exactly the envelope with statusCode 500 and empty-mapping
body — but JSON-serialized under gateway-proxy, where the same mapping
yields the string-bodied envelope instead. -/
theorem handler_mapping_envelope_defaults (app : LambdaFlask) (event : Val)
    (req : RequestInfo) (route : Route) (d : Dict) (tr : List TraceEv)
    (hnorm : utills.process_event app.source event = .ok req)
    (hfound : lookupRoute app.routes req.path = some route)
    (hexec : route.handle_request req.http_method req.req_params = (.ok (.val (.dict d)), tr)) :
    app.process_request event =
      ((match variantEnc app.isApiGatewayEvent ((alookup d "body").getD (.dict [])) with
        | .ok B2 => .ok (.dict [("statusCode", (alookup d "statusCode").getD (.int 500)),
                                ("body", B2)])
        | .error e => .error e), tr) :=
  process_request_dict_result app event req route d tr hnorm hfound hexec

/-- Claim C9 witness: a direct-invocation handler returning a mapping with
statusCode, body and an extra key — the envelope reads the two keys and
discards the rest. -/
theorem handler_mapping_envelope_defaults_witness :
    appC9Z.process_request (mkEvent .functionUrl "/a" "GET" []) =
      (.ok (.dict [("statusCode", .int 201), ("body", .str "ok")]),
       [.handlerCall (.dict [("headers", .dict [])])]) := by
  have H := handler_mapping_envelope_defaults appC9Z (mkEvent .functionUrl "/a" "GET" [])
    ⟨.str "/a", .str "GET", .dict [("headers", .dict [])], .null⟩
    ⟨"/a", ["GET"], [("GET", ⟨hFullW, []⟩)]⟩
    [("statusCode", .int 201), ("body", .str "ok"), ("x", .int 1)]
    [.handlerCall (.dict [("headers", .dict [])])]
    rfl rfl rfl
  simpa [variantEnc, alookup] using H

/-- Claim C9 counterexample: under gateway-proxy, a handler returning a
mapping with neither key yields the envelope with body the string
serialization of the empty mapping, not the empty mapping itself. -/
theorem gateway_serializes_defaulted_body :
    (appC9X.process_request (mkEvent .apiGatewayProxy "/a" "GET" [])).1 =
      .ok (.dict [("statusCode", .int 500), ("body", .str "\x7b\x7d")]) ∧
    Val.str "\x7b\x7d" ≠ Val.dict [] := ⟨rfl, by simp⟩

/-- Claim C10. The http_methods list stored on a Route never influences
dispatch: handle_request consults only the bound-methods mapping — its
result is invariant under changing http_methods, a bound method is served
even when absent from http_methods, and an unbound method yields 405 even
when present in http_methods. -/
theorem http_methods_list_unused_in_dispatch (p : String) (hm1 hm2 : List String)
    (ms : List (String × MethodHandler)) (M prm : Val) :
    Route.handle_request ⟨p, hm1, ms⟩ M prm = Route.handle_request ⟨p, hm2, ms⟩ M prm ∧
    (mhLookup ms M = none →
      Route.handle_request ⟨p, hm1, ms⟩ M prm =
        (.ok (.val (.dict [("statusCode", .int 405), ("body", .str "Method Not Allowed")])), [])) ∧
    (∀ mh, mhLookup ms M = some mh →
      Route.handle_request ⟨p, hm1, ms⟩ M prm = mh.execute prm) := by
  refine ⟨rfl, ?_, ?_⟩
  · intro h
    simp [Route.handle_request, h, Resp.json]
  · intro mh h
    simp [Route.handle_request, h]

/-- Claim C10 witness: a GET handler bound on a Route whose http_methods
list contains only POST is still served for GET, and POST (present in
http_methods but never bound) yields 405. -/
theorem http_methods_list_unused_in_dispatch_witness :
    Route.handle_request ⟨"/w", ["POST"], [("GET", mhC10)]⟩ (.str "GET") (.str "x") =
      mhC10.execute (.str "x") ∧
    Route.handle_request ⟨"/w", ["POST"], [("GET", mhC10)]⟩ (.str "POST") (.str "x") =
      (.ok (.val (.dict [("statusCode", .int 405), ("body", .str "Method Not Allowed")])), []) :=
  ⟨(http_methods_list_unused_in_dispatch "/w" ["POST"] ["GET"] [("GET", mhC10)]
      (.str "GET") (.str "x")).2.2 mhC10 rfl,
   (http_methods_list_unused_in_dispatch "/w" ["POST"] ["GET"] [("GET", mhC10)]
      (.str "POST") (.str "x")).2.1 rfl⟩
